import Mathlib

/-!
Shallow embedding of the `marble` object heap (src/src/lib.rs) and proofs
about its specification claims.

Modelling conventions:
* Machine integers (`u8`, `u32`, `u64`) are `Nat`; byte-width truncation is
  performed by the explicit byte-serialisation functions.
* Byte strings (`[u8]`, `Vec<u8>`) are `List Nat` whose elements are < 256 by
  construction of the serialisers.
* File names are `List Char`.
* The process heap-file directory is a list of `(name, contents)` pairs; an
  on-disk file's size is the length of its contents.
* Rust panics (`unwrap`, `expect`, `todo!`) are modelled as explicit
  `panicked` results.
* The embedded `pt_lsm::Lsm` index (a separate crate module whose contract is
  an associative map, per the spec's section 4.4) is modelled as an
  association list with insert-or-replace / delete batch updates.
-/

/-- Little-endian serialisation of `n` into `w` bytes (truncates mod 2^(8*w)),
mirroring Rust's `to_le_bytes`. -/
def toLeBytes : Nat → Nat → List Nat
  | _, 0 => []
  | n, w + 1 => n % 256 :: toLeBytes (n / 256) w

/-- Little-endian deserialisation, mirroring Rust's `from_le_bytes`. -/
def fromLeBytes : List Nat → Nat
  | [] => 0
  | b :: bs => b % 256 + 256 * fromLeBytes bs

/-- Big-endian serialisation, mirroring Rust's `to_be_bytes`. -/
def toBeBytes (n w : Nat) : List Nat := (toLeBytes n w).reverse

/-- Big-endian deserialisation, mirroring Rust's `from_be_bytes`. -/
def fromBeBytes (bs : List Nat) : Nat := fromLeBytes bs.reverse

/-- One bit step of the reflected CRC-32 (IEEE) computation used by the
`crc32fast` crate: shift right, conditionally xor the reflected polynomial. -/
def crcStep (c : Nat) : Nat :=
  if c % 2 = 1 then (c / 2) ^^^ 0xEDB88320 else c / 2

/-- Absorb one byte into the CRC-32 state. -/
def crcByte (c b : Nat) : Nat :=
  Nat.iterate crcStep 8 (c ^^^ (b % 256))

/-- CRC-32 (IEEE, as computed by `crc32fast::Hasher`) of a byte string. -/
def crc32 (bs : List Nat) : Nat :=
  (bs.foldl crcByte 0xFFFFFFFF) ^^^ 0xFFFFFFFF

/-! ## The page-location index (`pt_lsm::Lsm<8, 8>`)

Modelled as an association list from 8-byte keys to 8-byte values with
insert-or-replace semantics, matching the map contract of the index. -/

/-- The page-location index state: an associative map from 8-byte keys to
8-byte values. -/
abbrev PLI : Type := List (List Nat × List Nat)

/-- `Lsm::get`: first binding of the key, if any. -/
def ptGet : PLI → List Nat → Option (List Nat)
  | [], _ => none
  | (k, v) :: rest, key => if k = key then some v else ptGet rest key

/-- Insert-or-replace a binding. -/
def ptInsert : PLI → List Nat → List Nat → PLI
  | [], key, v => [(key, v)]
  | (k, v') :: rest, key, v =>
    if k = key then (key, v) :: rest else (k, v') :: ptInsert rest key v

/-- Delete a binding. -/
def ptErase : PLI → List Nat → PLI
  | [], _ => []
  | (k, v') :: rest, key =>
    if k = key then ptErase rest key else (k, v') :: ptErase rest key

/-- Apply one `(key, Option value)` update (`None` = delete). -/
def ptApply (pt : PLI) (k : List Nat) (v : Option (List Nat)) : PLI :=
  match v with
  | some val => ptInsert pt k val
  | none => ptErase pt k

/-- `Lsm::write_batch`: apply a sequence of updates in order. -/
def ptWriteBatch (pt : PLI) (updates : List (List Nat × Option (List Nat))) : PLI :=
  updates.foldl (fun p u => ptApply p u.1 u.2) pt

/-- `PT_LSN_KEY = u64::MAX.to_le_bytes()`: eight 0xFF bytes. -/
def ptLsnKey : List Nat := List.replicate 8 255

/-- The recovered watermark: little-endian value stored under `PT_LSN_KEY`,
zero if absent (lib.rs lines 93-97). -/
def recoveredPtLsn (pt : PLI) : Nat :=
  match ptGet pt ptLsnKey with
  | some v => fromLeBytes v
  | none => 0

/-! ## File names

`write_batch` formats names with `{:02x}-{:016x}-{:01x}-{:01x}-{:016x}`
(lib.rs lines 274-277); `open_with_config` splits on `-` and parses each
field with `str::parse` (decimal) (lib.rs lines 126-149). -/

/-- Decimal digit value of a character, `none` for non-digits. -/
def decDigit? (c : Char) : Option Nat :=
  if 48 ≤ c.toNat ∧ c.toNat ≤ 57 then some (c.toNat - 48) else none

/-- One step of decimal parsing: `none` is sticky, a non-digit poisons. -/
def decStep (acc : Option Nat) (c : Char) : Option Nat :=
  acc.bind (fun n => (decDigit? c).map (fun d => n * 10 + d))

/-- Decimal parse of a character string, as `str::parse::<uN>` does before
the range check: empty strings and strings with a non-digit fail. -/
def parseDec (s : List Char) : Option Nat :=
  if s = [] then none else s.foldl decStep (some 0)

/-- `str::parse::<u8>`. -/
def parseU8 (s : List Char) : Option Nat :=
  (parseDec s).bind (fun n => if n < 256 then some n else none)

/-- `str::parse::<u64>`. -/
def parseU64 (s : List Char) : Option Nat :=
  (parseDec s).bind (fun n => if n < 2 ^ 64 then some n else none)

/-- `str::split` on a single separator character: splits into pieces,
keeping empty pieces, always at least one piece. -/
def splitOnChar (c : Char) : List Char → List (List Char)
  | [] => [[]]
  | x :: xs =>
    match splitOnChar c xs with
    | [] => [[]]
    | h :: t => if x = c then [] :: h :: t else (x :: h) :: t

/-- Last piece of a split (the splits list is never empty). -/
def lastPiece : List (List Char) → List Char
  | [] => []
  | [x] => x
  | _ :: y :: ys => lastPiece (y :: ys)

/-- Lower-case hexadecimal rendering of `n`, left-padded with zeros to at
least `w` digits, as Rust's `{:0wx}` format. -/
def hexPad (n w : Nat) : List Char :=
  let ds := Nat.toDigits 16 n
  List.replicate (w - ds.length) (Char.ofNat 48) ++ ds

/-- The heap-file name `write_batch` publishes:
`{:02x}-{:016x}-{:01x}-{:01x}-{:016x}` over (shard, lsn, size_class,
generation, capacity). -/
def fileName (shard lsn size_class generation capacity : Nat) : List Char :=
  hexPad shard 2 ++ ['-'] ++ hexPad lsn 16 ++ ['-'] ++ hexPad size_class 1
    ++ ['-'] ++ hexPad generation 1 ++ ['-'] ++ hexPad capacity 16

/-- The field parsing `open_with_config` performs on a 5-piece name
(lib.rs lines 135-149): decimal `str::parse` of each piece; `none` when the
name does not split into exactly five pieces or some piece fails to parse. -/
def parseFileName (name : List Char) : Option (Nat × Nat × Nat × Nat × Nat) :=
  match splitOnChar '-' name with
  | [a, b, c, d, e] =>
    (parseU8 a).bind (fun shard =>
    (parseU64 b).bind (fun lsn =>
    (parseU8 c).bind (fun size_class =>
    (parseU8 d).bind (fun generation =>
    (parseU64 e).map (fun capacity => (shard, lsn, size_class, generation, capacity))))))
  | _ => none

/-! ## Store state

`FileAndMetadata` (lib.rs lines 27-36) carries a `File` handle; the model
carries the file's byte contents instead, so reads are executable. `Config`'s
`shard_function` field is a function pointer the source never calls
(`write_batch` hardcodes shard 0), so it is omitted from the model. -/

/-- In-memory metadata of one registered heap file (`FileAndMetadata`).
`len` is the live-record counter (an `AtomicU64` in the source). -/
structure FileMeta where
  shard : Nat
  location : Nat
  path : List Char
  capacity : Nat
  len : Nat
  size_class : Nat
  generation : Nat
  contents : List Nat
deriving DecidableEq, Repr

/-- The configuration record (`Config`), minus the uncalled function-pointer
field. -/
structure Config where
  path : List Char
  target_file_size : Nat
  file_compaction_percent : Nat
deriving DecidableEq, Repr

/-- The store handle state (`Marble`): page-location index, registry of heap
files keyed by base location (the `BTreeMap<DiskLocation, FileAndMetadata>`),
next base-LSN counter, configuration. -/
structure Marble where
  pt : PLI
  files : List (Nat × FileMeta)
  next_file_lsn : Nat
  config : Config
deriving DecidableEq, Repr

/-- `BTreeMap::insert`: key-ordered insert-or-replace into the registry. -/
def filesInsert : List (Nat × FileMeta) → Nat → FileMeta → List (Nat × FileMeta)
  | [], k, v => [(k, v)]
  | (k', v') :: rest, k, v =>
    if k = k' then (k, v) :: rest
    else if k < k' then (k, v) :: (k', v') :: rest
    else (k', v') :: filesInsert rest k v

/-- `files.range(..=loc).next_back()`: the entry with the largest key `≤ loc`,
if any. -/
def rangeNextBack (files : List (Nat × FileMeta)) (loc : Nat) : Option (Nat × FileMeta) :=
  files.foldl
    (fun acc e =>
      if e.1 ≤ loc then
        match acc with
        | none => some e
        | some b => if b.1 ≤ e.1 then some e else some b
      else acc)
    none

/-! ## Recovery (`Marble::open_with_config`, lib.rs lines 81-194) -/

/-- The fate of one heap-directory entry during the recovery scan
(lib.rs lines 106-184). `panicked` models the `expect` calls on field-parse
failures. -/
inductive EntryOutcome
  | deletedTmp
  | skipped
  | panicked
  | deletedOrphan
  | kept (meta : FileMeta)
deriving DecidableEq, Repr

/-- Recovery's treatment of a single directory entry with name `name` and
on-disk contents `contents`, given the recovered watermark `w`:
remove `*tmp` names; skip names that do not split into five pieces; `expect`
(panic) on a piece that fails decimal parse; remove files whose parsed lsn
exceeds `w`; otherwise register the file with `len := 0`. -/
def scanEntry (w : Nat) (name : List Char) (contents : List Nat) : EntryOutcome :=
  if ['t', 'm', 'p'] <:+ name then .deletedTmp
  else if (splitOnChar '-' name).length = 5 then
    match parseFileName name with
    | some (shard, lsn, size_class, generation, capacity) =>
      if w < lsn then .deletedOrphan
      else
        .kept
          { shard := shard, location := lsn, path := name, capacity := capacity,
            len := 0, size_class := size_class, generation := generation,
            contents := contents }
    | none => .panicked
  else .skipped

/-- The metadata records recovery registers, in directory order. -/
def keptMetas (w : Nat) (entries : List (List Char × List Nat)) : List FileMeta :=
  entries.filterMap (fun e =>
    match scanEntry w e.1 e.2 with
    | .kept meta => some meta
    | _ => none)

/-- `Marble::open_with_config` over a recovered index `pt` and a heap
directory listing: `none` models a panic during the scan; otherwise the
resulting store state, with
`next_file_lsn = max_file_lsn + max_file_size + 1` where the two maxima are
accumulated separately over the registered files (lib.rs lines 168-170, 186). -/
def open_with_config (config : Config) (pt : PLI)
    (entries : List (List Char × List Nat)) : Option Marble :=
  if entries.any
      (fun e => decide (scanEntry (recoveredPtLsn pt) e.1 e.2 = EntryOutcome.panicked)) then
    none
  else
    some
      { pt := pt,
        files := (keptMetas (recoveredPtLsn pt) entries).foldl
          (fun fs meta => filesInsert fs meta.location meta) [],
        next_file_lsn :=
          (keptMetas (recoveredPtLsn pt) entries).foldl
            (fun a meta => max a meta.location) 0
            + (keptMetas (recoveredPtLsn pt) entries).foldl
                (fun a meta => max a meta.contents.length) 0 + 1,
        config := config }

/-! ## Writer (`Marble::write_batch`, lib.rs lines 242-330) -/

/-- The writer's encoding loop (lib.rs lines 248-270): for each `(pid, page)`
record the assigned `DiskLocation` `lsn + buf.len()`, then append
`crc_le || pid_le || len_le || page` to the buffer, where the CRC is fed the
length bytes first, then the id bytes, then the payload (lib.rs lines
260-264). Returns (new_locations, buf, capacity). -/
def writeBatchCore (lsn : Nat) (pages : List (Nat × List Nat)) :
    List (Nat × Nat) × List Nat × Nat :=
  pages.foldl
    (fun acc pp =>
      let buf := acc.2.1
      let len_buf := toLeBytes pp.2.length 8
      let pid_buf := toLeBytes pp.1 8
      let crc := crc32 (len_buf ++ pid_buf ++ pp.2)
      (acc.1 ++ [(pp.1, lsn + buf.length)],
       buf ++ toLeBytes crc 4 ++ pid_buf ++ len_buf ++ pp.2,
       acc.2.2 + 1))
    ([], [], 0)

/-- `Marble::write_batch`: reserve the base lsn, encode, advance the counter
by `buf.len() + 1`, publish the file under its formatted name, then apply the
index batch (id locations plus the `PT_LSN_KEY` watermark) — without
inserting the new file into `files` (the source's TODO at lib.rs line 303).
Returns the new state plus the published file's name and contents. -/
def write_batch (m : Marble) (pages : List (Nat × List Nat)) :
    Marble × List Char × List Nat :=
  let lsn := m.next_file_lsn
  let r := writeBatchCore lsn pages
  let new_locations := r.1
  let buf := r.2.1
  let capacity := r.2.2
  let fname := fileName 0 lsn 0 0 capacity
  let ptBatch :=
    new_locations.map (fun pl => (toBeBytes pl.1 8, Option.some (toBeBytes pl.2 8)))
      ++ [(ptLsnKey, Option.some (toLeBytes lsn 8))]
  ({ m with
      pt := ptWriteBatch m.pt ptBatch,
      next_file_lsn := lsn + buf.length + 1 },
   fname, buf)

/-! ## Reader (`Marble::read`, lib.rs lines 196-240) -/

/-- Result of a read: `panicked` models the two `unwrap`s (missing index key,
empty registry range); `ioError` models a failing `read_exact`. -/
inductive ReadResult
  | ok (payload : List Nat)
  | panicked
  | ioError
deriving DecidableEq, Repr

/-- `Marble::read`: look up the big-endian location of `pid` in the index
(`unwrap`: panic when absent), find the owning file by registry range lookup
(`unwrap`: panic when the registry has no base `≤` location), seek to
`lsn - base`, read the 20-byte header, and return `len` payload bytes.
The stored CRC and object id are decoded but never checked, exactly as in the
source (lib.rs lines 220-225); the `u64 → usize` length conversion cannot
fail on a 64-bit target, so the corrupted-length branch is dead. -/
def read (m : Marble) (pid : Nat) : ReadResult :=
  match ptGet m.pt (toBeBytes pid 8) with
  | none => .panicked
  | some lsn_bytes =>
    let lsn := fromBeBytes lsn_bytes
    match rangeNextBack m.files lsn with
    | none => .panicked
    | some base_entry =>
      let file_offset := lsn - base_entry.1
      let contents := base_entry.2.contents
      if contents.length < file_offset + 20 then .ioError
      else
        let header := (contents.drop file_offset).take 20
        let _crc_expected := fromLeBytes (header.take 4)
        let _pid_decoded := fromLeBytes ((header.drop 4).take 8)
        let len := fromLeBytes (header.drop 12)
        if contents.length < file_offset + 20 + len then .ioError
        else .ok ((contents.drop (file_offset + 20)).take len)

/-! ## Maintenance (`Marble::maintenance`, lib.rs lines 332-383) -/

/-- The selection pass of `maintenance` (lib.rs lines 342-354): files with
`len == 0` are scheduled for direct path deletion; files with
`len * 100 / max(capacity, 1)` below the compaction percentage are scheduled
for defrag (path deletion, registry removal and rewrite). -/
structure MaintSelection where
  files_to_defrag : List FileMeta
  locations_to_remove : List Nat
  paths_to_remove : List (List Char)
deriving DecidableEq, Repr

/-- Compute the maintenance selection lists in registry order. -/
def maintSelect (files : List (Nat × FileMeta)) (pct : Nat) : MaintSelection :=
  files.foldl
    (fun s e =>
      let meta := e.2
      let cap := max meta.capacity 1
      if meta.len = 0 then
        { s with paths_to_remove := s.paths_to_remove ++ [meta.path] }
      else if meta.len * 100 / cap < pct then
        { files_to_defrag := s.files_to_defrag ++ [meta],
          locations_to_remove := s.locations_to_remove ++ [meta.location],
          paths_to_remove := s.paths_to_remove ++ [meta.path] }
      else s)
    ⟨[], [], []⟩

/-- Result of `maintenance`: the source's `FilteredPageRewriteIter::new` body
is `todo!()` (lib.rs line 393), so the call panics before the rewrite, the
registry removals and the path deletions are ever reached. -/
inductive MaintResult
  | panicked
  | ok (m : Marble)
deriving DecidableEq, Repr

/-- `Marble::maintenance`: build the selection, then construct the rewrite
iterator — whose constructor is `todo!()` and therefore panics
unconditionally. -/
def maintenance (m : Marble) : MaintResult :=
  let s := maintSelect m.files m.config.file_compaction_percent
  match s with
  | _ => MaintResult.panicked

/-! ## Specification-side definitions

These follow the wording of the spec claims, to be compared with the
source-derived definitions above. -/

/-- The record encoding exactly as claim C3 words it: CRC over
`id_le || len_le || payload` (id bytes first), emitted as
`crc_le || id_le || len_le || payload`. -/
def encodeRecordClaim (pid : Nat) (page : List Nat) : List Nat :=
  toLeBytes (crc32 (toLeBytes pid 8 ++ toLeBytes page.length 8 ++ page)) 4
    ++ toLeBytes pid 8 ++ toLeBytes page.length 8 ++ page

/-- The record encoding with the CRC field order the source actually uses:
CRC over `len_le || id_le || payload`, emitted as
`crc_le || id_le || len_le || payload`. -/
def encodeRecordAmended (pid : Nat) (page : List Nat) : List Nat :=
  toLeBytes (crc32 (toLeBytes page.length 8 ++ toLeBytes pid 8 ++ page)) 4
    ++ toLeBytes pid 8 ++ toLeBytes page.length 8 ++ page

/-- Concatenated per-record encodings of a batch. -/
def batchBuf (pages : List (Nat × List Nat)) : List Nat :=
  (pages.map (fun pp => encodeRecordAmended pp.1 pp.2)).flatten

/-- Closed form of the writer's assigned locations: record `i` lives at the
base lsn plus the total encoded size of the records before it. -/
def locsOf (lsn : Nat) : List (Nat × List Nat) → List (Nat × Nat)
  | [] => []
  | (pid, page) :: rest => (pid, lsn) :: locsOf (lsn + (20 + page.length)) rest

/-- Total encoded size of a batch: 20 header bytes plus the payload per
record. -/
def encSize : List (Nat × List Nat) → Nat
  | [] => 0
  | (_, page) :: rest => 20 + page.length + encSize rest

/-- The byte ranges `(start, length)` occupied by the records of a batch
based at `lsn`. -/
def recordRanges (lsn : Nat) : List (Nat × List Nat) → List (Nat × Nat)
  | [] => []
  | (_, page) :: rest =>
    (lsn, 20 + page.length) :: recordRanges (lsn + (20 + page.length)) rest

/-- The next-lsn value claim C10 prescribes:
`1 + max over surviving files of (base_lsn + file_size)`. -/
def specNextLsn (w : Nat) (entries : List (List Char × List Nat)) : Nat :=
  1 + (keptMetas w entries).foldl (fun a meta => max a (meta.location + meta.contents.length)) 0

/-- Number of index entries (excluding `PT_LSN_KEY`) whose big-endian decoded
location falls inside `[lo, hi)` — the count invariant I4 demands of a file's
`live` counter. -/
def pliEntriesInto (pt : PLI) (lo hi : Nat) : Nat :=
  pt.countP (fun kv =>
    decide (kv.1 ≠ ptLsnKey ∧ lo ≤ fromBeBytes kv.2 ∧ fromBeBytes kv.2 < hi))

/-! ## Concrete states used by the claim theorems -/

/-- A default configuration (path and sizes are irrelevant to the claims). -/
def defaultConfig : Config :=
  { path := [], target_file_size := 2 ^ 28, file_compaction_percent := 60 }

/-- The store state produced by a fresh `open` on an empty directory:
empty index, empty registry, `next_file_lsn = 0 + 0 + 1`. -/
def freshMarble : Marble :=
  { pt := [], files := [], next_file_lsn := 1, config := defaultConfig }

/-- On-disk contents of a single record for id 5 with payload `[9]` whose
stored CRC header field is 0 — not the record's actual CRC. -/
def badCrcContents : List Nat :=
  toLeBytes 0 4 ++ toLeBytes 5 8 ++ toLeBytes 1 8 ++ [9]

/-- A store whose only registered file holds one record for id 5 whose stored
CRC header field (0) does not match the record's recomputed CRC. -/
def badCrcStore : Marble :=
  { pt := [(toBeBytes 5 8, toBeBytes 0 8)],
    files :=
      [(0,
        { shard := 0, location := 0, path := fileName 0 0 0 0 1, capacity := 1,
          len := 0, size_class := 0, generation := 0,
          contents := badCrcContents })],
    next_file_lsn := 100,
    config := defaultConfig }

/-- An index with a single object entry: id 5 at location 0. -/
def ptSingle : PLI := [(toBeBytes 5 8, toBeBytes 0 8)]

/-- The metadata recovery registers for the single file of `entriesSingle`:
live counter (`len`) initialised to 0 (lib.rs line 173). -/
def singleMeta : FileMeta :=
  { shard := 0, location := 0, path := ['0', '-', '0', '-', '0', '-', '0', '-', '1'],
    capacity := 1, len := 0, size_class := 0, generation := 0,
    contents := List.replicate 21 7 }

/-- A directory with one parseable heap file of capacity 1 and size 21
(one record of payload length 1). -/
def entriesSingle : List (List Char × List Nat) :=
  [(['0', '-', '0', '-', '0', '-', '0', '-', '1'], List.replicate 21 7)]

/-- An index whose watermark is 50 (so both files below survive recovery). -/
def ptFifty : PLI := [(ptLsnKey, toLeBytes 50 8)]

/-- Two surviving files: base 0 with size 100, base 50 with size 10. The
file attaining the maximal base lsn is not the one attaining the maximal
size. -/
def entriesTwo : List (List Char × List Nat) :=
  [(['0', '-', '0', '-', '0', '-', '0', '-', '1'], List.replicate 100 0),
   (['0', '-', '5', '0', '-', '0', '-', '0', '-', '1'], List.replicate 10 0)]

/-! ## Helper lemmas about the writer -/

theorem toLeBytes_length : ∀ (w n : Nat), (toLeBytes n w).length = w
  | 0, _ => rfl
  | w + 1, n => by simp [toLeBytes, toLeBytes_length w]

theorem encodeRecordAmended_length (pid : Nat) (page : List Nat) :
    (encodeRecordAmended pid page).length = 20 + page.length := by
  simp [encodeRecordAmended, toLeBytes_length]
  omega

theorem batchBuf_nil : batchBuf [] = [] := rfl

theorem batchBuf_cons (pid : Nat) (page : List Nat) (rest : List (Nat × List Nat)) :
    batchBuf ((pid, page) :: rest) = encodeRecordAmended pid page ++ batchBuf rest := by
  simp [batchBuf]

theorem batchBuf_length : ∀ (pages : List (Nat × List Nat)),
    (batchBuf pages).length = encSize pages
  | [] => rfl
  | (pid, page) :: rest => by
    simp [batchBuf_cons, encSize, encodeRecordAmended_length, batchBuf_length rest]

theorem writeBatchCore_go (lsn : Nat) :
    ∀ (pages : List (Nat × List Nat)) (locs0 : List (Nat × Nat)) (buf0 : List Nat) (cap0 : Nat),
    pages.foldl
      (fun acc pp =>
        let buf := acc.2.1
        let len_buf := toLeBytes pp.2.length 8
        let pid_buf := toLeBytes pp.1 8
        let crc := crc32 (len_buf ++ pid_buf ++ pp.2)
        (acc.1 ++ [(pp.1, lsn + buf.length)],
         buf ++ toLeBytes crc 4 ++ pid_buf ++ len_buf ++ pp.2,
         acc.2.2 + 1))
      (locs0, buf0, cap0)
    = (locs0 ++ locsOf (lsn + buf0.length) pages, buf0 ++ batchBuf pages, cap0 + pages.length)
  | [], locs0, buf0, cap0 => by simp [locsOf, batchBuf]
  | (pid, page) :: rest, locs0, buf0, cap0 => by
    simp only [List.foldl_cons]
    rw [writeBatchCore_go lsn rest]
    simp [locsOf, batchBuf_cons, encodeRecordAmended, List.append_assoc,
      toLeBytes_length, List.length_append]
    constructor
    · have : buf0.length + (4 + (8 + (8 + page.length))) = buf0.length + (20 + page.length) := by
        omega
      rw [Nat.add_assoc]
      rw [this]
    · omega

theorem writeBatchCore_eq (lsn : Nat) (pages : List (Nat × List Nat)) :
    writeBatchCore lsn pages = (locsOf lsn pages, batchBuf pages, pages.length) := by
  unfold writeBatchCore
  rw [writeBatchCore_go lsn pages [] [] 0]
  simp

theorem recordRanges_bounds :
    ∀ (pages : List (Nat × List Nat)) (lsn : Nat) (r : Nat × Nat),
    r ∈ recordRanges lsn pages → lsn ≤ r.1 ∧ r.1 + r.2 ≤ lsn + encSize pages
  | [], _, _, h => by simp [recordRanges] at h
  | (pid, page) :: rest, lsn, r, h => by
    simp only [recordRanges, List.mem_cons] at h
    rcases h with h | h
    · subst h
      simp [encSize]
    · have ih := recordRanges_bounds rest (lsn + (20 + page.length)) r h
      simp [encSize]
      omega

theorem recordRanges_pairwise :
    ∀ (pages : List (Nat × List Nat)) (lsn : Nat),
    List.Pairwise (fun r1 r2 => r1.1 + r1.2 ≤ r2.1) (recordRanges lsn pages)
  | [], _ => List.Pairwise.nil
  | (pid, page) :: rest, lsn => by
    simp only [recordRanges]
    refine List.Pairwise.cons ?_ (recordRanges_pairwise rest (lsn + (20 + page.length)))
    intro r hr
    have := (recordRanges_bounds rest (lsn + (20 + page.length)) r hr).1
    omega

theorem locsOf_map_snd :
    ∀ (pages : List (Nat × List Nat)) (lsn : Nat),
    (locsOf lsn pages).map Prod.snd = (recordRanges lsn pages).map Prod.fst
  | [], _ => rfl
  | (pid, page) :: rest, lsn => by
    simp [locsOf, recordRanges, locsOf_map_snd rest]

/-! ## Helper lemmas about name splitting and parsing -/

theorem splitOnChar_ne_nil (c : Char) : ∀ (s : List Char), splitOnChar c s ≠ []
  | [] => by simp [splitOnChar]
  | x :: xs => by
    simp only [splitOnChar]
    cases splitOnChar c xs with
    | nil => simp
    | cons h t =>
      by_cases hx : x = c <;> simp [hx]

theorem decStep_none (x : Char) : decStep none x = none := rfl

theorem decStep_nondigit (x : Char) (hx : decDigit? x = none) :
    ∀ (acc : Option Nat), decStep acc x = none := by
  intro acc
  cases acc <;> simp [decStep, hx]

theorem parseDec_tmp_none (s : List Char) (hs : ['t', 'm', 'p'] <:+ s) :
    parseDec s = none := by
  obtain ⟨zs, hzs⟩ := hs
  subst hzs
  have hne : zs ++ ['t', 'm', 'p'] ≠ [] := by simp
  rw [parseDec, if_neg hne, List.foldl_append]
  have h1 : decStep (List.foldl decStep (some 0) zs) 't' = none :=
    decStep_nondigit 't' (by decide) _
  simp [List.foldl_cons, h1, decStep_none]

theorem parseU64_tmp_none (s : List Char) (hs : ['t', 'm', 'p'] <:+ s) :
    parseU64 s = none := by
  simp [parseU64, parseDec_tmp_none s hs]

theorem tmp_suffix_lastPiece :
    ∀ (name : List Char), ['t', 'm', 'p'] <:+ name →
    ['t', 'm', 'p'] <:+ lastPiece (splitOnChar '-' name)
  | [], h => by simp at h
  | x :: xs, h => by
    rw [List.suffix_cons_iff] at h
    rcases h with h | h
    · have hx : x = 't' := by
        have := congrArg (fun l => l.headI) h
        simpa using this.symm
      have hxs : xs = ['m', 'p'] := by
        have := congrArg List.tail h
        simpa using this.symm
      subst hx
      subst hxs
      decide
    · have ih := tmp_suffix_lastPiece xs h
      simp only [splitOnChar]
      rcases hsp : splitOnChar '-' xs with _ | ⟨h0, t0⟩
      · exact absurd hsp (splitOnChar_ne_nil '-' xs)
      · rw [hsp] at ih
        by_cases hx : x = '-'
        · simp only [if_pos hx]
          simpa [lastPiece] using ih
        · simp only [if_neg hx]
          rcases t0 with _ | ⟨y, ys⟩
          · simp only [lastPiece] at ih ⊢
            exact ih.trans (List.suffix_cons x h0)
          · simpa [lastPiece] using ih

theorem lastPiece_five (a b c d e : List Char) :
    lastPiece [a, b, c, d, e] = e := rfl

theorem parseFileName_tmp_none (name : List Char)
    (hs : ['t', 'm', 'p'] <:+ name) : parseFileName name = none := by
  have hlast := tmp_suffix_lastPiece name hs
  unfold parseFileName
  rcases hsp : splitOnChar '-' name with _ | ⟨a, _ | ⟨b, _ | ⟨c, _ | ⟨d, _ | ⟨e, _ | ⟨f, rest⟩⟩⟩⟩⟩⟩
  · rfl
  · rfl
  · rfl
  · rfl
  · rfl
  · rw [hsp] at hlast
    rw [lastPiece_five] at hlast
    have he : parseU64 e = none := parseU64_tmp_none e hlast
    rcases parseU8 a with _ | s <;> rcases parseU64 b with _ | l <;>
      rcases parseU8 c with _ | z <;> rcases parseU8 d with _ | g <;> simp [he]
  · rfl

theorem parseFileName_some_splits (name : List Char) (t : Nat × Nat × Nat × Nat × Nat)
    (h : parseFileName name = some t) : (splitOnChar '-' name).length = 5 := by
  unfold parseFileName at h
  rcases hsp : splitOnChar '-' name with _ | ⟨a, _ | ⟨b, _ | ⟨c, _ | ⟨d, _ | ⟨e, _ | ⟨f, rest⟩⟩⟩⟩⟩⟩ <;>
    rw [hsp] at h <;> simp_all

/-! ## Helper lemmas about running maxima -/

theorem le_foldl_max {α : Type} (f : α → Nat) :
    ∀ (l : List α) (a : Nat), a ≤ l.foldl (fun acc y => max acc (f y)) a
  | [], _ => le_refl _
  | x :: xs, a => le_trans (Nat.le_max_left a (f x)) (le_foldl_max f xs (max a (f x)))

theorem mem_le_foldl_max {α : Type} (f : α → Nat) :
    ∀ (l : List α) (a : Nat) (x : α), x ∈ l → f x ≤ l.foldl (fun acc y => max acc (f y)) a
  | [], _, _, h => by simp at h
  | y :: ys, a, x, h => by
    rcases List.mem_cons.mp h with h | h
    · subst h
      exact le_trans (Nat.le_max_right a (f x)) (le_foldl_max f ys (max a (f x)))
    · exact mem_le_foldl_max f ys (max a (f y)) x h

/-! ## Claim theorems -/

set_option maxRecDepth 100000

/-- C1: the claim says that after a successful `write_batch` and without a
restart, `read(id)` returns the payload just written. In the source,
`write_batch` never inserts the published file into the registry (the TODO at
lib.rs line 303), so on a freshly opened store the subsequent `read` reaches
the registry range lookup with an empty registry and panics on its `unwrap`
instead of returning the payload — contradicting the source's own
`test_01`. -/
theorem c1_read_after_write_panics :
    open_with_config defaultConfig [] [] = some freshMarble
    ∧ read (write_batch freshMarble [(1, [42])]).1 1 = ReadResult.panicked := by
  constructor
  · decide
  · decide

/-- C2: the claim says a missing index key yields a "not found" error and
that CRC / object-id mismatches yield corruption errors, so that every
returned payload CRC-matches its stored header. In the source, a missing key
panics on `unwrap` (lib.rs line 203), and `read` decodes but never checks the
stored CRC or object id: a record whose stored CRC field is 0 is returned
successfully even though its recomputed CRC differs. -/
theorem c2_read_error_classification_fails :
    read freshMarble 1 = ReadResult.panicked
    ∧ read badCrcStore 5 = ReadResult.ok [9]
    ∧ fromLeBytes (badCrcContents.take 4)
        ≠ crc32 (toLeBytes 1 8 ++ toLeBytes 5 8 ++ [9]) := by
  refine ⟨by decide, by decide, by decide⟩

/-- C3 (counterexample): the claim says the CRC is computed over
`id_le || len_le || payload` in that field order. For the record
`(id 1, empty payload)` the buffer the writer's loop actually produces
differs from the claim's encoding exactly in the 4 CRC bytes, while the
remaining 16 header bytes agree — because the source feeds the hasher the
length bytes first, then the id bytes (lib.rs lines 260-263). -/
theorem c3_crc_order_counterexample :
    ((writeBatchCore 0 [(1, [])]).2.1).take 4 ≠ (encodeRecordClaim 1 []).take 4
    ∧ ((writeBatchCore 0 [(1, [])]).2.1).drop 4 = (encodeRecordClaim 1 []).drop 4 := by
  constructor
  · decide
  · decide

/-- C3 (amended): for every batch, the writer's encoding loop produces the
concatenation of per-record encodings `crc_le || id_le || len_le || payload`
where the CRC is computed over `len_le || id_le || payload` — the length
bytes first, then the id bytes, then the payload. -/
theorem c3_record_encoding_amended (lsn : Nat) (pages : List (Nat × List Nat)) :
    (writeBatchCore lsn pages).2.1
      = (pages.map (fun pp => encodeRecordAmended pp.1 pp.2)).flatten := by
  rw [writeBatchCore_eq]
  rfl

/-- C6: the claim says `maintenance` deletes dead files, defragments
under-occupied ones and returns with no file below the fragmentation
threshold. In the source, `maintenance` unconditionally constructs
`FilteredPageRewriteIter`, whose constructor body is `todo!()` (lib.rs line
393): every call panics before any deletion, rewrite or registry removal
happens. -/
theorem c6_maintenance_always_panics (m : Marble) :
    maintenance m = MaintResult.panicked := rfl

/-- C8: the claim says parsing a published file name during recovery yields
back exactly the encoded fields. `write_batch` formats the fields in
hexadecimal (lib.rs line 275) but recovery parses them with decimal
`str::parse` (lib.rs lines 135-149): a file published with base LSN 16 is
named `00-0000000000000010-0-0-0000000000000001` and parses back with LSN 10,
not 16 (and any field containing a hex letter panics recovery). -/
theorem c8_name_roundtrip_broken :
    (write_batch { freshMarble with next_file_lsn := 16 } [(1, [])]).2.1
      = fileName 0 16 0 0 1
    ∧ parseFileName (fileName 0 16 0 0 1) = some (0, 10, 0, 0, 1)
    ∧ parseFileName (fileName 0 16 0 0 1) ≠ some (0, 16, 0, 0, 1) := by
  refine ⟨by decide, by decide, by decide⟩

/-- C9 (counterexample): the claim says any entry whose name fails to parse
is logged and skipped, and opening never crashes. The five-piece name
`zz-1-2-3-4` passes the shape check but its shard field fails decimal parse,
and the source's `expect` (lib.rs line 137) panics. -/
theorem c9_parse_panic_counterexample :
    scanEntry 0 ['z', 'z', '-', '1', '-', '2', '-', '3', '-', '4'] []
      = EntryOutcome.panicked := by decide

/-- C9 (amended): for every heap-directory entry, recovery first checks the
tmp suffix: a name ending in `tmp` is deleted, whatever its shape. A name
that does not end in `tmp` and does not split into exactly five
dash-separated pieces is logged and skipped, and the scan continues. But a
name that does not end in `tmp`, splits into exactly five pieces, and has a
piece that fails decimal parse makes `open` panic via `expect` rather than
being skipped or deleted. -/
theorem c9_bad_name_handling (w : Nat) (name : List Char) (contents : List Nat) :
    (['t', 'm', 'p'] <:+ name →
      scanEntry w name contents = EntryOutcome.deletedTmp)
    ∧ (¬ (['t', 'm', 'p'] <:+ name) → (splitOnChar '-' name).length ≠ 5 →
        scanEntry w name contents = EntryOutcome.skipped)
    ∧ (¬ (['t', 'm', 'p'] <:+ name) → (splitOnChar '-' name).length = 5 →
        parseFileName name = none →
        scanEntry w name contents = EntryOutcome.panicked) := by
  refine ⟨?_, ?_, ?_⟩
  · intro h
    unfold scanEntry
    rw [if_pos h]
  · intro h1 h2
    unfold scanEntry
    rw [if_neg h1, if_neg h2]
  · intro h1 h2 hp
    unfold scanEntry
    rw [if_neg h1, if_pos h2, hp]

/-- Witness for the amended C9 theorem at the concrete malformed name
`ab`, which has no tmp suffix and splits into one piece. -/
theorem c9_bad_name_handling_witness :
    scanEntry 0 ['a', 'b'] [] = EntryOutcome.skipped :=
  (c9_bad_name_handling 0 ['a', 'b'] []).2.1 (by decide) (by decide)

/-- C4: the claim says each file's live counter equals the number of index
entries pointing into the file, starts at capacity on publication, and after
recovery sums to the number of index keys. In the source, recovery registers
every surviving file with `len: 0.into()` (lib.rs line 173) and performs no
reconstruction pass, no operation ever increments `len`, and `write_batch`
registers nothing at all: after recovering a capacity-1 file referenced by
one index entry, the counter is 0 while the invariant demands 1. -/
theorem c4_live_counter_not_maintained :
    open_with_config defaultConfig ptSingle entriesSingle
      = some { pt := ptSingle, files := [(0, singleMeta)], next_file_lsn := 22,
               config := defaultConfig }
    ∧ singleMeta.len = 0
    ∧ pliEntriesInto ptSingle singleMeta.location
        (singleMeta.location + singleMeta.contents.length) = 1
    ∧ singleMeta.len
        ≠ pliEntriesInto ptSingle singleMeta.location
            (singleMeta.location + singleMeta.contents.length) := by
  refine ⟨by decide, by decide, by decide, by decide⟩

/-- C5: during recovery, every entry whose name ends in `-tmp` is deleted;
every entry whose name parses with a base lsn above the recovered watermark
is deleted as an orphan; and every file that is kept satisfies
`base_lsn ≤ watermark`. -/
theorem c5_recovery_deletions (pt : PLI) (name : List Char) (contents : List Nat) :
    (['-', 't', 'm', 'p'] <:+ name →
      scanEntry (recoveredPtLsn pt) name contents = EntryOutcome.deletedTmp)
    ∧ (∀ s l z g cap, parseFileName name = some (s, l, z, g, cap) →
        recoveredPtLsn pt < l →
        scanEntry (recoveredPtLsn pt) name contents = EntryOutcome.deletedOrphan)
    ∧ (∀ meta, scanEntry (recoveredPtLsn pt) name contents = EntryOutcome.kept meta →
        meta.location ≤ recoveredPtLsn pt) := by
  refine ⟨?_, ?_, ?_⟩
  · intro h
    have h' : ['t', 'm', 'p'] <:+ name :=
      List.IsSuffix.trans (by decide : ['t', 'm', 'p'] <:+ ['-', 't', 'm', 'p']) h
    unfold scanEntry
    rw [if_pos h']
  · intro s l z g cap hp hl
    have htmp : ¬ (['t', 'm', 'p'] <:+ name) := by
      intro h
      rw [parseFileName_tmp_none name h] at hp
      cases hp
    have h5 := parseFileName_some_splits name _ hp
    unfold scanEntry
    rw [if_neg htmp, if_pos h5, hp]
    simp [hl]
  · intro meta hk
    unfold scanEntry at hk
    by_cases h1 : ['t', 'm', 'p'] <:+ name
    · rw [if_pos h1] at hk
      simp at hk
    · rw [if_neg h1] at hk
      by_cases h2 : (splitOnChar '-' name).length = 5
      · rw [if_pos h2] at hk
        rcases hp : parseFileName name with _ | ⟨s, l, z, g, cap⟩
        · rw [hp] at hk
          simp at hk
        · rw [hp] at hk
          by_cases h3 : recoveredPtLsn pt < l
          · simp [h3] at hk
          · simp only [if_neg h3, EntryOutcome.kept.injEq] at hk
            rw [← hk]
            show l ≤ recoveredPtLsn pt
            omega
      · rw [if_neg h2] at hk
        simp at hk

/-- Witness for the C5 theorem: the concrete tmp-suffixed name `a-tmp` is
deleted by the scan. -/
theorem c5_recovery_deletions_witness :
    scanEntry (recoveredPtLsn []) ['a', '-', 't', 'm', 'p'] []
      = EntryOutcome.deletedTmp :=
  (c5_recovery_deletions [] ['a', '-', 't', 'm', 'p'] []).1 (by decide)

/-- C7: `write_batch` reserves the current counter value as the batch base,
advances the counter by the encoded size plus one (hence strictly), assigns
the in-batch record locations exactly at the starts of the packed record
ranges, and those ranges are pairwise disjoint within a batch, contained in
`[base, next_counter)`, and disjoint from the ranges any later batch would be
assigned. -/
theorem c7_lsn_reservation_and_disjointness (m : Marble)
    (pages pages2 : List (Nat × List Nat)) :
    (write_batch m pages).1.next_file_lsn = m.next_file_lsn + encSize pages + 1
    ∧ m.next_file_lsn < (write_batch m pages).1.next_file_lsn
    ∧ (writeBatchCore m.next_file_lsn pages).1.map Prod.snd
        = (recordRanges m.next_file_lsn pages).map Prod.fst
    ∧ List.Pairwise (fun r1 r2 => r1.1 + r1.2 ≤ r2.1)
        (recordRanges m.next_file_lsn pages)
    ∧ (∀ r ∈ recordRanges m.next_file_lsn pages,
        m.next_file_lsn ≤ r.1
        ∧ r.1 + r.2 < (write_batch m pages).1.next_file_lsn)
    ∧ (∀ r1 ∈ recordRanges m.next_file_lsn pages,
       ∀ r2 ∈ recordRanges (write_batch m pages).1.next_file_lsn pages2,
        r1.1 + r1.2 ≤ r2.1) := by
  have hnext : (write_batch m pages).1.next_file_lsn
      = m.next_file_lsn + encSize pages + 1 := by
    simp [write_batch, writeBatchCore_eq, batchBuf_length]
  refine ⟨hnext, ?_, ?_, ?_, ?_, ?_⟩
  · rw [hnext]
    omega
  · rw [writeBatchCore_eq]
    exact locsOf_map_snd pages m.next_file_lsn
  · exact recordRanges_pairwise pages m.next_file_lsn
  · intro r hr
    have hb := recordRanges_bounds pages m.next_file_lsn r hr
    rw [hnext]
    omega
  · intro r1 h1 r2 h2
    have b1 := recordRanges_bounds pages m.next_file_lsn r1 h1
    have b2 := recordRanges_bounds pages2 ((write_batch m pages).1.next_file_lsn) r2 h2
    rw [hnext] at b2
    omega

/-- Witness for the C7 theorem: in the two-record batch
`[(1, [42]), (2, [])]` written from a fresh store, the second record's range
`(22, 20)` starts at or after the base lsn 1 and ends before the advanced
counter. -/
theorem c7_lsn_reservation_witness :
    freshMarble.next_file_lsn ≤ 22
    ∧ 22 + 20 < (write_batch freshMarble [(1, [42]), (2, [])]).1.next_file_lsn :=
  (c7_lsn_reservation_and_disjointness freshMarble [(1, [42]), (2, [])] []).2.2.2.2.1
    (22, 20) (by decide)

/-- C10 (counterexample): the claim says the recovered next-lsn counter is
`1 + max(base_lsn + file_size)`. The source takes the maximum base lsn and
the maximum file size separately and adds them (lib.rs lines 168-170, 186):
for files (base 0, size 100) and (base 50, size 10) it recovers 151 while the
claim's formula gives 101. -/
theorem c10_next_lsn_counterexample :
    (open_with_config defaultConfig ptFifty entriesTwo).map Marble.next_file_lsn
      = some 151
    ∧ specNextLsn (recoveredPtLsn ptFifty) entriesTwo = 101
    ∧ (151 : Nat) ≠ 101 := by
  refine ⟨by decide, by decide, by decide⟩

/-- C10 (amended): after recovery the counter equals
`max(base_lsn) + max(file_size) + 1` with the maxima taken independently over
the surviving files, which is at least the claim's `1 + max(base_lsn +
file_size)`; consequently every surviving file's byte range ends strictly
below the counter, so locations assigned after a restart never overlap a
surviving file. -/
theorem c10_no_overlap_after_recovery (config : Config) (pt : PLI)
    (entries : List (List Char × List Nat)) (m : Marble) (meta : FileMeta)
    (hopen : open_with_config config pt entries = some m)
    (hmem : meta ∈ keptMetas (recoveredPtLsn pt) entries) :
    meta.location + meta.contents.length < m.next_file_lsn := by
  unfold open_with_config at hopen
  split at hopen
  · cases hopen
  · rw [Option.some.injEq] at hopen
    subst hopen
    have h1 : meta.location
        ≤ (keptMetas (recoveredPtLsn pt) entries).foldl
            (fun a meta => max a meta.location) 0 :=
      mem_le_foldl_max (fun meta => meta.location)
        (keptMetas (recoveredPtLsn pt) entries) 0 meta hmem
    have h2 : meta.contents.length
        ≤ (keptMetas (recoveredPtLsn pt) entries).foldl
            (fun a meta => max a meta.contents.length) 0 :=
      mem_le_foldl_max (fun meta => meta.contents.length)
        (keptMetas (recoveredPtLsn pt) entries) 0 meta hmem
    show meta.location + meta.contents.length
      < (keptMetas (recoveredPtLsn pt) entries).foldl
          (fun a meta => max a meta.location) 0
        + (keptMetas (recoveredPtLsn pt) entries).foldl
            (fun a meta => max a meta.contents.length) 0 + 1
    omega

/-- Witness for the amended C10 theorem at the concrete single-file
recovery. -/
theorem c10_no_overlap_witness :
    singleMeta.location + singleMeta.contents.length
      < ({ pt := ptSingle, files := [(0, singleMeta)], next_file_lsn := 22,
           config := defaultConfig } : Marble).next_file_lsn :=
  c10_no_overlap_after_recovery defaultConfig ptSingle entriesSingle
    { pt := ptSingle, files := [(0, singleMeta)], next_file_lsn := 22,
      config := defaultConfig }
    singleMeta (by decide) (by decide)
